import Mathlib

/-!
Verification of the pgxn-deps core: operating-system detection, the
package-manager catalog, install-command synthesis, and the Repology
registry query-and-filter pipeline.  The definitions below are a shallow
embedding of `src/operating_system.rs` and `src/package_type/repology.rs`.
-/

namespace PgxnDeps

/-- The error type of the crate (`crate::error::Error`).  Its defining file is
not among the embedded sources; the variants are reconstructed from their uses
in `operating_system.rs` and `repology.rs` and from the error taxonomy of the
design document: `UnsupportedOperatingSystem`, `FailedRequest` with a status
code and a message, and wrapped transport/parse failures. -/
inductive Error where
  | UnsupportedOperatingSystem : Error
  | FailedRequest (status_code : Nat) (message : String) : Error
  | TransportOrParse : Error
deriving DecidableEq

/-- `OperatingSystem` from `operating_system.rs`. -/
inductive OperatingSystem where
  | Mac : OperatingSystem
  | Debian : OperatingSystem
  | RedHat : OperatingSystem
  | Windows : OperatingSystem
deriving DecidableEq, Fintype

/-- `PackageManager` from `operating_system.rs`. -/
inductive PackageManager where
  | Apt : PackageManager
  | Dnf : PackageManager
  | Yum : PackageManager
  | Chocolatey : PackageManager
  | Homebrew : PackageManager
deriving DecidableEq, Fintype

/-- `OperatingSystem::package_managers`. -/
def package_managers : OperatingSystem → List PackageManager
  | .Mac => [.Homebrew]
  | .Debian => [.Apt]
  | .RedHat => [.Dnf, .Yum]
  | .Windows => [.Chocolatey]

/-- Rust `str::to_lowercase`, modelled character-wise with `Char.toLower`.
Every string the source compares against is ASCII, where this agrees with
the Rust function. -/
def to_lowercase (s : String) : String :=
  String.mk (s.data.map Char.toLower)

/-- The single-quote character, written by code point to keep it out of
string literals. -/
def squote : String :=
  String.singleton (Char.ofNat 39)

/-- `FromStr for OperatingSystem`: lowercase the input, then match it against
the accepted aliases; the error message embeds the original input between
single quotes, as `format!` does in the source. -/
def from_str (s : String) : Except String OperatingSystem :=
  let l := to_lowercase s
  if l = "mac" ∨ l = "osx" ∨ l = "macos" then .ok .Mac
  else if l = "debian" then .ok .Debian
  else if l = "redhat" ∨ l = "rhel" then .ok .RedHat
  else if l = "windows" ∨ l = "win" then .ok .Windows
  else .error ("Invalid operating system: " ++ squote ++ s ++ squote)

/-- The per-line match inside `detect_linux_distribution`: whole-line string
equality against the recognised `ID=` lines. -/
def line_match (line : String) : Option OperatingSystem :=
  if line = "ID=debian" then some .Debian
  else if line = "ID=fedora" ∨ line = "ID=centos" ∨ line = "ID=rhel" then some .RedHat
  else none

/-- The loop of `detect_linux_distribution` over `reader.lines()`: a line is
`none` when it failed to decode as text (the `let Ok(line) = maybe_line else
continue` arm skips it); the first matching line decides the result. -/
def detect_linux_lines : List (Option String) → Option OperatingSystem
  | [] => none
  | maybe_line :: rest =>
    match maybe_line with
    | none => detect_linux_lines rest
    | some line =>
      match line_match line with
      | some os => some os
      | none => detect_linux_lines rest

/-- `OperatingSystem::detect_linux_distribution`: the argument is the content
of `/etc/os-release` as the reader yields it, `none` when the file cannot be
opened (the `ok()?` early return). -/
def detect_linux_distribution (os_release : Option (List (Option String))) :
    Option OperatingSystem :=
  match os_release with
  | none => none
  | some lines => detect_linux_lines lines

/-- The compile-time target the `cfg!` tests in `detect` distinguish. -/
inductive BuildTarget where
  | linux : BuildTarget
  | windows : BuildTarget
  | macos : BuildTarget
  | other : BuildTarget
deriving DecidableEq

/-- `OperatingSystem::detect`: branch on the target, read `/etc/os-release`
on Linux, and turn a missing match into `Error::UnsupportedOperatingSystem`
(`os.ok_or(...)`). -/
def detect (target : BuildTarget) (os_release : Option (List (Option String))) :
    Except Error OperatingSystem :=
  let os : Option OperatingSystem :=
    match target with
    | .linux => detect_linux_distribution os_release
    | .windows => some .Windows
    | .macos => some .Mac
    | .other => none
  match os with
  | some o => .ok o
  | none => .error .UnsupportedOperatingSystem

/-- `PackageManager::requires_sudo`. -/
def requires_sudo : PackageManager → Bool
  | .Apt | .Dnf | .Yum => true
  | .Homebrew | .Chocolatey => false

/-- `PackageManager::install`: the verb table is the `install_command`
binding inside the source function, and the sudo part mirrors the
`format!` call. -/
def install (pm : PackageManager) (package_name : String) : String :=
  let install_command :=
    match pm with
    | .Apt => "apt-get install -y"
    | .Dnf => "dnf install -y"
    | .Yum => "yum install -y"
    | .Homebrew => "brew install"
    | .Chocolatey => "choco install"
  (if requires_sudo pm then "sudo " else "") ++ install_command ++ " " ++ package_name

/-- The `install_command` table of `PackageManager::install`, extracted so
that theorems can speak about the verb separately from the sudo handling. -/
def install_verb : PackageManager → String
  | .Apt => "apt-get install -y"
  | .Dnf => "dnf install -y"
  | .Yum => "yum install -y"
  | .Homebrew => "brew install"
  | .Chocolatey => "choco install"

/-- `PackageManager::repology_repository_prefix` (plural name here because
the singular collides with a reserved word). -/
def repology_repository_prefixes : PackageManager → List String
  | .Apt => ["debian_", "ubuntu_"]
  | .Dnf | .Yum => ["fedora_", "centos_"]
  | .Chocolatey => ["chocolatey"]
  | .Homebrew => ["homebrew"]

/-- Rust `str::starts_with`, modelled as a prefix test on the character
list. -/
def starts_with (s : String) (p : String) : Bool :=
  p.data.isPrefixOf s.data

/-- `Project` from `repology.rs`: one registry metadata record. -/
structure Project where
  repo : String
  srcname : Option String
  visiblename : String
  version : String
  origversion : Option String
  status : String
  vulnerable : Option Bool
  licenses : List String
  summary : Option String
  categories : List String
  subrepo : Option String
  binname : Option String
  maintainers : List String
deriving DecidableEq

/-- The predicate of the `projects.retain` call in `get_projects`: does some
prefix of some supplied package manager start the repository identifier? -/
def project_matches (managers : List PackageManager) (project : Project) : Bool :=
  managers.any fun package_manager =>
    (repology_repository_prefixes package_manager).any fun rp =>
      starts_with project.repo rp

/-- The filtering step of `get_projects` (`projects.retain(...)`): keep, in
order, exactly the records accepted by `project_matches`. -/
def filter_projects (projects : List Project) (managers : List PackageManager) :
    List Project :=
  projects.filter (project_matches managers)

/-- `reqwest::StatusCode::is_success`: the 2xx range. -/
def status_is_success (status_code : Nat) : Bool :=
  200 ≤ status_code && status_code < 300

/-- The response `get_projects` receives back from `send()`: the status code
(`as_u16`), the body as `text()` would yield it (`none` when it cannot be
read), and the body parsed as a project list as `json()` would yield it
(`none` when deserialization fails). -/
structure HttpResponse where
  status_code : Nat
  body : Option String
  json : Option (List Project)

/-- The response-processing part of `RepologyClient::get_projects`, after URL
construction and `send()` (the transport is the input here): a non-success
status becomes `Error::FailedRequest` carrying the raw body (empty when the
body cannot be read), a `json()` failure propagates, and on success the
parsed list is filtered against the OS's package managers. -/
def get_projects (os : OperatingSystem) (resp : HttpResponse) :
    Except Error (List Project) :=
  if !(status_is_success resp.status_code) then
    .error (.FailedRequest resp.status_code (resp.body.getD ("")))
  else
    match resp.json with
    | none => .error .TransportOrParse
    | some projects => .ok (filter_projects projects (package_managers os))

/-- The JSON values serde exchanges for a `Project`. -/
inductive Json where
  | null : Json
  | bool (b : Bool) : Json
  | str (s : String) : Json
  | arr (elems : List Json) : Json
  | obj (fields : List (String × Json)) : Json

/-- serde serialization of an optional string: `None` becomes `null`. -/
def jsonOfOptStr : Option String → Json
  | none => .null
  | some s => .str s

/-- serde serialization of an optional boolean: `None` becomes `null`. -/
def jsonOfOptBool : Option Bool → Json
  | none => .null
  | some b => .bool b

/-- serde serialization of a string sequence. -/
def jsonOfStrList (xs : List String) : Json :=
  .arr (xs.map .str)

/-- The derived `Serialize` for `Project`: an object with the fields in
declaration order.  `rename_all = "camelCase"` leaves every field name
unchanged, since each is a single lowercase word. -/
def serializeProject (p : Project) : Json :=
  .obj [(("repo"), .str p.repo),
        (("srcname"), jsonOfOptStr p.srcname),
        (("visiblename"), .str p.visiblename),
        (("version"), .str p.version),
        (("origversion"), jsonOfOptStr p.origversion),
        (("status"), .str p.status),
        (("vulnerable"), jsonOfOptBool p.vulnerable),
        (("licenses"), jsonOfStrList p.licenses),
        (("summary"), jsonOfOptStr p.summary),
        (("categories"), jsonOfStrList p.categories),
        (("subrepo"), jsonOfOptStr p.subrepo),
        (("binname"), jsonOfOptStr p.binname),
        (("maintainers"), jsonOfStrList p.maintainers)]

/-- First value bound to a key in a serde map, if any. -/
def lookupField (fields : List (String × Json)) (key : String) : Option Json :=
  match fields.find? (fun kv => kv.fst = key) with
  | some kv => some kv.snd
  | none => none

/-- Deserialize a required string field: it must be present and a string. -/
def decodeStrField (fields : List (String × Json)) (key : String) : Option String :=
  match lookupField fields key with
  | some (.str s) => some s
  | _ => none

/-- Deserialize an `Option<String>` field: serde treats a missing field and
`null` both as `None`. -/
def decodeOptStrField (fields : List (String × Json)) (key : String) :
    Option (Option String) :=
  match lookupField fields key with
  | none => some none
  | some .null => some none
  | some (.str s) => some (some s)
  | some _ => none

/-- Deserialize an `Option<bool>` field: missing or `null` is `None`. -/
def decodeOptBoolField (fields : List (String × Json)) (key : String) :
    Option (Option Bool) :=
  match lookupField fields key with
  | none => some none
  | some .null => some none
  | some (.bool b) => some (some b)
  | some _ => none

/-- Deserialize a JSON value as a list of strings. -/
def decodeStrList : Json → Option (List String)
  | .arr elems => elems.mapM fun j =>
      match j with
      | .str s => some s
      | _ => none
  | _ => none

/-- Deserialize a `#[serde(default)] Vec<String>` field: a missing field
defaults to the empty list; a present one must be an array of strings. -/
def decodeStrListField (fields : List (String × Json)) (key : String) :
    Option (List String) :=
  match lookupField fields key with
  | none => some []
  | some j => decodeStrList j

/-- The derived `Deserialize` for `Project` under the documented rules:
required string fields, optional fields defaulting to absent, and
`#[serde(default)]` sequence fields defaulting to empty. -/
def deserializeProject : Json → Option Project
  | .obj fields => do
      let repo ← decodeStrField fields ("repo")
      let srcname ← decodeOptStrField fields ("srcname")
      let visiblename ← decodeStrField fields ("visiblename")
      let version ← decodeStrField fields ("version")
      let origversion ← decodeOptStrField fields ("origversion")
      let status ← decodeStrField fields ("status")
      let vulnerable ← decodeOptBoolField fields ("vulnerable")
      let licenses ← decodeStrListField fields ("licenses")
      let summary ← decodeOptStrField fields ("summary")
      let categories ← decodeStrListField fields ("categories")
      let subrepo ← decodeOptStrField fields ("subrepo")
      let binname ← decodeOptStrField fields ("binname")
      let maintainers ← decodeStrListField fields ("maintainers")
      pure { repo := repo, srcname := srcname, visiblename := visiblename,
             version := version, origversion := origversion, status := status,
             vulnerable := vulnerable, licenses := licenses, summary := summary,
             categories := categories, subrepo := subrepo, binname := binname,
             maintainers := maintainers }
  | _ => none

/-- A registry record carrying only the required fields, used as concrete
input for the filtering examples. -/
def sampleProject (repo : String) : Project :=
  { repo := repo, srcname := none, visiblename := repo, version := "1.0",
    origversion := none, status := "newest", vulnerable := none,
    licenses := [], summary := none, categories := [], subrepo := none,
    binname := none, maintainers := [] }

deriving instance DecidableEq for Except

/-! ## Helper lemmas -/

/-- Packing a valid code point and reading it back is the identity. -/
theorem toNat_ofNat_valid (n : Nat) (h : n.isValidChar) : (Char.ofNat n).toNat = n := by
  rw [Char.ofNat, dif_pos h]
  simp [Char.ofNatAux, Char.toNat, UInt32.toNat, BitVec.toNat_ofNatLt]

/-- Character lowering is idempotent: a lowered ASCII letter leaves the
uppercase range. -/
theorem char_toLower_idem (c : Char) : c.toLower.toLower = c.toLower := by
  unfold Char.toLower
  by_cases h : c.toNat ≥ 65 ∧ c.toNat ≤ 90
  · rw [if_pos h]
    have hv : (c.toNat + 32).isValidChar := Or.inl (by omega)
    rw [toNat_ofNat_valid _ hv, if_neg (by omega)]
  · rw [if_neg h, if_neg h]

/-- String lowering is idempotent. -/
theorem to_lowercase_idem (s : String) : to_lowercase (to_lowercase s) = to_lowercase s := by
  simp [to_lowercase, List.map_map, Function.comp_def, char_toLower_idem]

/-- `from_str` unfolded to its branch structure over the lowered input. -/
theorem from_str_spec (s : String) :
    from_str s =
      if to_lowercase s = "mac" ∨ to_lowercase s = "osx" ∨ to_lowercase s = "macos" then
        .ok .Mac
      else if to_lowercase s = "debian" then .ok .Debian
      else if to_lowercase s = "redhat" ∨ to_lowercase s = "rhel" then .ok .RedHat
      else if to_lowercase s = "windows" ∨ to_lowercase s = "win" then .ok .Windows
      else .error ("Invalid operating system: " ++ squote ++ s ++ squote) := rfl

/-! ## The claims -/

/-- C1: the filtering step of `get_projects` retains a `Project` exactly when
its repository identifier starts with a prefix of one of the supplied package
managers, keeps the retained records in their original relative order (the
result is a sublist of the input), and on repositories
`debian_stable`, `homebrew`, `chocolatey` filtered against Debian's managers
(`[Apt]`) it retains exactly the `debian_stable` entry in its position. -/
theorem claim_C1 :
    (∀ (projects : List Project) (managers : List PackageManager) (p : Project),
        p ∈ filter_projects projects managers ↔
          p ∈ projects ∧ ∃ pm ∈ managers,
            ∃ rp ∈ repology_repository_prefixes pm, starts_with p.repo rp = true)
    ∧ (∀ (projects : List Project) (managers : List PackageManager),
        (filter_projects projects managers).Sublist projects)
    ∧ filter_projects
        [sampleProject ("debian_stable"), sampleProject ("homebrew"),
         sampleProject ("chocolatey")]
        (package_managers OperatingSystem.Debian)
      = [sampleProject ("debian_stable")] := by
  refine ⟨?_, ?_, by decide⟩
  · intro projects managers p
    simp [filter_projects, project_matches, List.mem_filter, List.any_eq_true]
  · intro projects managers
    exact List.filter_sublist projects

/-- C2 counterexample: `Dnf` and `Yum` are distinct `PackageManager` values
and yet the prefix string `fedora_` belongs to both prefix sets, so the
prefix sets of distinct managers are not pairwise disjoint. -/
theorem claim_C2_counterexample :
    PackageManager.Dnf ≠ PackageManager.Yum
    ∧ ("fedora_" : String) ∈ repology_repository_prefixes PackageManager.Dnf
    ∧ ("fedora_" : String) ∈ repology_repository_prefixes PackageManager.Yum := by
  decide

/-- C2 (amended): every manager's prefix set is non-empty, and the prefix
sets of distinct managers are pairwise disjoint except for `Dnf` and `Yum`,
which share the identical set `[fedora_, centos_]`. -/
theorem claim_C2 :
    (∀ pm : PackageManager, 0 < (repology_repository_prefixes pm).length)
    ∧ (∀ pm₁ pm₂ : PackageManager, pm₁ ≠ pm₂ →
        (pm₁ = .Dnf ∧ pm₂ = .Yum) ∨ (pm₁ = .Yum ∧ pm₂ = .Dnf) ∨
          ∀ s ∈ repology_repository_prefixes pm₁, s ∉ repology_repository_prefixes pm₂)
    ∧ repology_repository_prefixes PackageManager.Dnf
        = repology_repository_prefixes PackageManager.Yum := by
  decide

/-- C3: Linux distribution discrimination scans the lines in order, returns
the value of the first line whole-line-equal to `ID=debian` (Debian) or to
`ID=fedora`/`ID=centos`/`ID=rhel` (RedHat), skips undecodable lines, yields
no match at end of file or when the file cannot be opened — in which case
`detect` on Linux fails with `UnsupportedOperatingSystem`; the three-line
Debian file matches, and `ID=debian-derivative` does not. -/
theorem claim_C3 :
    (∀ (line : String) (rest : List (Option String)) (os : OperatingSystem),
        line_match line = some os →
        detect_linux_lines (some line :: rest) = some os)
    ∧ (∀ (line : String) (rest : List (Option String)),
        line_match line = none →
        detect_linux_lines (some line :: rest) = detect_linux_lines rest)
    ∧ (∀ rest : List (Option String),
        detect_linux_lines (none :: rest) = detect_linux_lines rest)
    ∧ detect_linux_lines [] = none
    ∧ (∀ line : String, line_match line = some OperatingSystem.Debian ↔ line = "ID=debian")
    ∧ (∀ line : String, line_match line = some OperatingSystem.RedHat ↔
        (line = "ID=fedora" ∨ line = "ID=centos" ∨ line = "ID=rhel"))
    ∧ detect BuildTarget.linux none = Except.error Error.UnsupportedOperatingSystem
    ∧ (∀ os_release, detect_linux_distribution os_release = none →
        detect BuildTarget.linux os_release = Except.error Error.UnsupportedOperatingSystem)
    ∧ detect_linux_lines [some ("NAME=Debian"), some ("ID=debian"), some ("VERSION=11")]
        = some OperatingSystem.Debian
    ∧ line_match ("ID=debian-derivative") = none := by
  refine ⟨?_, ?_, ?_, rfl, ?_, ?_, rfl, ?_, by decide, by decide⟩
  · intro line rest os h
    simp [detect_linux_lines, h]
  · intro line rest h
    simp [detect_linux_lines, h]
  · intro rest
    rfl
  · intro line
    unfold line_match
    split_ifs with h1 h2 <;> simp_all
  · intro line
    unfold line_match
    split_ifs with h1 h2 <;> simp_all
  · intro os_release h
    simp [detect, h]

/-- C4: `install` produces the sudo prefix exactly when `requires_sudo` holds,
followed by the manager's verb and the package name, and the two documented
examples evaluate as stated. -/
theorem claim_C4 :
    (∀ (pm : PackageManager) (package_name : String),
        install pm package_name =
          (if requires_sudo pm then "sudo " else "") ++ install_verb pm ++ " " ++ package_name)
    ∧ install PackageManager.Apt ("nginx") = "sudo apt-get install -y nginx"
    ∧ install PackageManager.Homebrew ("nginx") = "brew install nginx" := by
  refine ⟨?_, by decide, by decide⟩
  intro pm package_name
  cases pm <;> rfl

/-- C5: `requires_sudo` is true exactly for `Apt`, `Dnf`, `Yum` and false
exactly for `Homebrew`, `Chocolatey`. -/
theorem claim_C5 :
    (∀ pm : PackageManager, requires_sudo pm = true ↔ (pm = .Apt ∨ pm = .Dnf ∨ pm = .Yum))
    ∧ (∀ pm : PackageManager, requires_sudo pm = false ↔ (pm = .Homebrew ∨ pm = .Chocolatey)) := by
  decide

/-- C6: a non-success status makes `get_projects` fail with `FailedRequest`
carrying that status and the raw body (empty when the body is unreadable); a
success value only arises from a successful status and is exactly the full
filtered list of the parsed response; a 404 with body `not found` yields
`FailedRequest` with status 404 and that body, never a success. -/
theorem claim_C6 :
    (∀ (os : OperatingSystem) (resp : HttpResponse),
        status_is_success resp.status_code = false →
          get_projects os resp =
            Except.error (Error.FailedRequest resp.status_code (resp.body.getD (""))))
    ∧ (∀ (os : OperatingSystem) (resp : HttpResponse) (result : List Project),
        get_projects os resp = Except.ok result →
          status_is_success resp.status_code = true
          ∧ ∃ projects, resp.json = some projects
              ∧ result = filter_projects projects (package_managers os))
    ∧ (∀ os : OperatingSystem,
        get_projects os { status_code := 404, body := some ("not found"), json := none }
          = Except.error (Error.FailedRequest 404 ("not found"))) := by
  refine ⟨?_, ?_, ?_⟩
  · intro os resp h
    simp [get_projects, h]
  · intro os resp result h
    unfold get_projects at h
    by_cases hs : status_is_success resp.status_code
    · simp [hs] at h
      rcases hj : resp.json with _ | projects
      · rw [hj] at h; simp at h
      · rw [hj] at h; simp at h
        exact ⟨hs, projects, rfl, h.symm⟩
    · simp [hs] at h
  · intro os
    cases os <;> rfl

/-- C7: `package_managers` is the stated table, every operating system maps
to a non-empty sequence, and every manager's prefix set is a non-empty list
of pairwise-distinct, non-empty strings. -/
theorem claim_C7 :
    package_managers OperatingSystem.Mac = [PackageManager.Homebrew]
    ∧ package_managers OperatingSystem.Debian = [PackageManager.Apt]
    ∧ package_managers OperatingSystem.RedHat = [PackageManager.Dnf, PackageManager.Yum]
    ∧ package_managers OperatingSystem.Windows = [PackageManager.Chocolatey]
    ∧ (∀ os : OperatingSystem, 0 < (package_managers os).length)
    ∧ (∀ pm : PackageManager,
        0 < (repology_repository_prefixes pm).length
        ∧ (repology_repository_prefixes pm).Nodup
        ∧ ∀ s ∈ repology_repository_prefixes pm, 0 < s.length) := by
  decide

/-- C8: serializing a `Project` whose optional fields are all absent and
whose sequence fields are all empty, then deserializing, gives back an equal
`Project`, whatever its required string fields hold. -/
theorem claim_C8 :
    ∀ repo visiblename version status : String,
      deserializeProject (serializeProject
        { repo := repo, srcname := none, visiblename := visiblename,
          version := version, origversion := none, status := status,
          vulnerable := none, licenses := [], summary := none, categories := [],
          subrepo := none, binname := none, maintainers := [] })
      = some { repo := repo, srcname := none, visiblename := visiblename,
               version := version, origversion := none, status := status,
               vulnerable := none, licenses := [], summary := none, categories := [],
               subrepo := none, binname := none, maintainers := [] } := by
  intro repo visiblename version status
  rfl

/-- C9 counterexample: the claim says `from_str s` equals
`from_str (lowercase s)` for every `s`, but on the invalid input `A` the two
error messages embed the differently-cased originals, so the results differ. -/
theorem claim_C9_counterexample :
    from_str ("A") ≠ from_str (to_lowercase ("A")) := by
  decide

/-- C9 (amended): parsing is case-insensitive on acceptance — `from_str s`
and `from_str (lowercase s)` return the same successes, with the alias table
as stated, and they error together; only the error payload, which embeds the
original string, can differ. -/
theorem claim_C9 :
    (∀ (s : String) (os : OperatingSystem),
        from_str s = .ok os ↔ from_str (to_lowercase s) = .ok os)
    ∧ (∀ s, from_str s = .ok .Mac ↔
        (to_lowercase s = "mac" ∨ to_lowercase s = "osx" ∨ to_lowercase s = "macos"))
    ∧ (∀ s, from_str s = .ok .Debian ↔ to_lowercase s = "debian")
    ∧ (∀ s, from_str s = .ok .RedHat ↔ (to_lowercase s = "redhat" ∨ to_lowercase s = "rhel"))
    ∧ (∀ s, from_str s = .ok .Windows ↔ (to_lowercase s = "windows" ∨ to_lowercase s = "win"))
    ∧ (∀ s, (∃ e, from_str s = .error e) ↔ (∃ e, from_str (to_lowercase s) = .error e)) := by
  refine ⟨?_, ?_, ?_, ?_, ?_, ?_⟩
  · intro s os
    rw [from_str_spec s, from_str_spec (to_lowercase s), to_lowercase_idem]
    split_ifs <;> simp
  · intro s
    rw [from_str_spec s]
    generalize to_lowercase s = t
    split_ifs with h1 h2 h3 h4 <;> simp [h1]
  · intro s
    rw [from_str_spec s]
    generalize to_lowercase s = t
    split_ifs with h1 h2 h3 h4 <;>
      first
        | (rcases h1 with rfl | rfl | rfl <;> decide)
        | simp [h2]
  · intro s
    rw [from_str_spec s]
    generalize to_lowercase s = t
    split_ifs with h1 h2 h3 h4 <;>
      first
        | (rcases h1 with rfl | rfl | rfl <;> decide)
        | (rcases h2 with rfl <;> decide)
        | simp [h3]
  · intro s
    rw [from_str_spec s]
    generalize to_lowercase s = t
    split_ifs with h1 h2 h3 h4 <;>
      first
        | (rcases h1 with rfl | rfl | rfl <;> decide)
        | (rcases h2 with rfl <;> decide)
        | (rcases h3 with rfl | rfl <;> decide)
        | simp [h4]
  · intro s
    rw [from_str_spec s, from_str_spec (to_lowercase s), to_lowercase_idem]
    split_ifs <;> simp

/-- C10: a line other than the four recognised `ID=` lines never matches, so
an Ubuntu `/etc/os-release` makes Linux detection fail with
`UnsupportedOperatingSystem`, even though `ubuntu_` is one of Apt's registry
prefixes and an Ubuntu repository record passes Debian's project filter. -/
theorem claim_C10 :
    (∀ line : String,
        line ≠ "ID=debian" → line ≠ "ID=fedora" → line ≠ "ID=centos" → line ≠ "ID=rhel" →
        line_match line = none)
    ∧ detect BuildTarget.linux
        (some [some ("NAME=Ubuntu"), some ("ID=ubuntu"), some ("VERSION=22.04")])
        = Except.error Error.UnsupportedOperatingSystem
    ∧ ("ubuntu_" : String) ∈ repology_repository_prefixes PackageManager.Apt
    ∧ project_matches (package_managers OperatingSystem.Debian)
        (sampleProject ("ubuntu_22_04")) = true := by
  refine ⟨?_, by decide, by decide, by decide⟩
  intro line h1 h2 h3 h4
  simp [line_match, h1, h2, h3, h4]

end PgxnDeps
